import Mathlib

set_option maxRecDepth 100000

/-!
Verification of the worklog-retro period/week calculator and record store.

The Python sources (src/utils.py, src/storage.py, src/app.py) are embedded
shallowly below.  Calendar dates are represented by their proleptic Gregorian
ordinal (days since 0001-01-00, so 0001-01-01 has ordinal 1), exactly the
representation used by Python's `datetime.date.toordinal`; date comparison,
date subtraction and date + timedelta arithmetic in the source all factor
through this ordinal, so the embedding is faithful.  Machine integers are
modelled by Nat/Int (Python integers are unbounded, so no wrap-around is
needed).  Functions that can raise return Option/Except.
-/

/-! ### Calendar model (Python `datetime.date`) -/

/-- Leap year test of the Gregorian calendar (as in Python's `calendar.isleap`). -/
def isLeapYear (y : Nat) : Bool :=
  (y % 4 == 0 && y % 100 != 0) || y % 400 == 0

/-- Length of month `m` (1-12) in a year with leap flag `leap`. -/
def daysInMonth (leap : Bool) (m : Nat) : Nat :=
  match m with
  | 1 => 31 | 2 => if leap then 29 else 28 | 3 => 31 | 4 => 30
  | 5 => 31 | 6 => 30 | 7 => 31 | 8 => 31
  | 9 => 30 | 10 => 31 | 11 => 30 | _ => 31

/-- Days in the year before month `m` begins. -/
def daysBeforeMonth (leap : Bool) (m : Nat) : Nat :=
  (match m with
   | 1 => 0 | 2 => 31 | 3 => 59 | 4 => 90 | 5 => 120 | 6 => 151
   | 7 => 181 | 8 => 212 | 9 => 243 | 10 => 273 | 11 => 304 | _ => 334)
  + (if leap && 3 ≤ m then 1 else 0)

/-- Number of days in year `y`. -/
def daysInYear (y : Nat) : Nat := if isLeapYear y then 366 else 365

/-- Proleptic Gregorian ordinal of the calendar date `y-m-d`
(Python `date(y, m, d).toordinal()`): day 1 is 0001-01-01. -/
def toOrdinal (y m d : Nat) : Nat :=
  365 * (y - 1) + (y - 1) / 4 - (y - 1) / 100 + (y - 1) / 400
    + daysBeforeMonth (isLeapYear y) m + d

/-- A date value, identified with its Gregorian ordinal. -/
abbrev Date := Nat

/-- Fuel-driven year scan: starting at year `y` with `rem` days remaining,
walk forward year by year until `rem` falls inside the current year.  The
fuel bound 9999 covers the whole range Python's `datetime` supports
(years 1-9999), so the fuel never runs out for ordinals of real dates. -/
def yearScan : Nat → Nat → Nat → Nat × Nat
  | 0, y, rem => (y, rem)
  | fuel + 1, y, rem =>
    if daysInYear y < rem then yearScan fuel (y + 1) (rem - daysInYear y)
    else (y, rem)

/-- Fuel-driven month scan inside one year: `rem` is the 1-based day of year. -/
def monthScan : Nat → Bool → Nat → Nat → Nat × Nat
  | 0, _, m, rem => (m, rem)
  | fuel + 1, leap, m, rem =>
    if daysInMonth leap m < rem then monthScan fuel leap (m + 1) (rem - daysInMonth leap m)
    else (m, rem)

/-- Convert an ordinal back to the calendar triple `(year, month, day)`
(Python `date.fromordinal`). -/
def civilFromOrdinal (ord : Nat) : Nat × Nat × Nat :=
  let yr := yearScan 9999 1 ord
  let md := monthScan 12 (isLeapYear yr.1) 1 yr.2
  (yr.1, md.1, md.2)

/-- Decimal rendering padded on the left with zeros to width two
(Python format spec `02d` for nonnegative values). -/
def pad2 (n : Nat) : String :=
  if n < 10 then "0" ++ toString n else toString n

/-- Decimal rendering padded on the left with zeros to width four. -/
def pad4 (n : Nat) : String :=
  if n < 10 then "000" ++ toString n
  else if n < 100 then "00" ++ toString n
  else if n < 1000 then "0" ++ toString n
  else toString n

/-- ISO 8601 rendering of a date (Python `date.isoformat`): `YYYY-MM-DD`. -/
def isoformatDate (d : Date) : String :=
  let c := civilFromOrdinal d
  pad4 c.1 ++ "-" ++ pad2 c.2.1 ++ "-" ++ pad2 c.2.2

/-- Numeric value of a decimal digit character. -/
def digitVal (c : Char) : Nat := c.toNat - '0'.toNat

/-- Models Python `date.fromisoformat` restricted to its portable strict
form `YYYY-MM-DD`: ten characters, dashes at positions 4 and 7, all other
positions decimal digits, and the triple must denote a real calendar date
with year in 1-9999.  Anything else raises, modelled as `none`. -/
def fromisoformat (s : String) : Option Date :=
  match s.data with
  | [y1, y2, y3, y4, s1, m1, m2, s2, d1, d2] =>
    if (s1 = '-' && s2 = '-' &&
        [y1, y2, y3, y4, m1, m2, d1, d2].all Char.isDigit : Bool) then
      let y := 1000 * digitVal y1 + 100 * digitVal y2 + 10 * digitVal y3 + digitVal y4
      let m := 10 * digitVal m1 + digitVal m2
      let d := 10 * digitVal d1 + digitVal d2
      if (1 ≤ y && y ≤ 9999 && 1 ≤ m && m ≤ 12 && 1 ≤ d &&
          d ≤ daysInMonth (isLeapYear y) m : Bool) then
        some (toOrdinal y m d)
      else none
    else none
  | _ => none

/-! ### src/utils.py : period/week calculator -/

/-- `PERIOD_START = date(2024, 6, 1)` from src/utils.py. -/
def PERIOD_START : Date := toOrdinal 2024 6 1

/-- `PERIOD_END = date(2024, 12, 31)` from src/utils.py. -/
def PERIOD_END : Date := toOrdinal 2024 12 31

/-- `validate_date_in_range` from src/utils.py: the date lies in the closed
period. -/
def validate_date_in_range (entry_date : Date) : Bool :=
  PERIOD_START ≤ entry_date && entry_date ≤ PERIOD_END

/-- `compute_week_index` from src/utils.py: 1-based index of the 7-day block
containing the date; raises (`none`) outside the period. -/
def compute_week_index (entry_date : Date) : Option Nat :=
  if validate_date_in_range entry_date then
    some ((entry_date - PERIOD_START) / 7 + 1)
  else none

/-- `get_week_boundaries` from src/utils.py: start/end dates of week
`week_index`; raises (`none`) when the index is below 1.  The end date is
clamped to the period end. -/
def get_week_boundaries (week_index : Nat) : Option (Date × Date) :=
  if week_index < 1 then none
  else
    let start_date := PERIOD_START + (week_index - 1) * 7
    let end_date := start_date + 6
    some (start_date, if PERIOD_END < end_date then PERIOD_END else end_date)

/-- One row produced by `get_all_weeks`. -/
structure WeekRow where
  week_index : Nat
  week_start : Date
  week_end : Date
  deriving Repr, DecidableEq

/-- The body of the `while current_date <= PERIOD_END` loop of
`get_all_weeks` in src/utils.py.  The loop state is fully determined by the
iteration count `k`: before iteration `k` (0-based) the variables satisfy
`week_index = k + 1` and `current_date = PERIOD_START + 7 * k` (initially
`current_date = PERIOD_START`, and each iteration sets `current_date` to
`start_date + 7 = PERIOD_START + 7 * (k + 1)`).  The loop adds 7 days per
iteration across a 214-day period, so it runs 31 times; fuel 1000 is
strictly more than any possible iteration count, hence the fuel-driven
recursion computes exactly what the loop computes. -/
def allWeeksLoop : Nat → Nat → List WeekRow
  | 0, _ => []
  | fuel + 1, k =>
    if PERIOD_START + 7 * k ≤ PERIOD_END then
      match get_week_boundaries (k + 1) with
      | some se => ⟨k + 1, se.1, se.2⟩ :: allWeeksLoop fuel (k + 1)
      | none => []
    else []

/-- `get_all_weeks` from src/utils.py. -/
def get_all_weeks : List WeekRow := allWeeksLoop 1000 0

/-- `get_total_weeks` from src/utils.py: ceiling of period length over 7. -/
def get_total_weeks : Nat :=
  ((PERIOD_END - PERIOD_START + 1) + 6) / 7

/-- `format_hhmm` from src/utils.py.  For nonnegative Python ints, floor
division and modulo by 60 agree with `Nat` division on `Int.toNat`. -/
def format_hhmm (minutes : Int) : String :=
  if minutes < 0 then "00:00"
  else pad2 (minutes.toNat / 60) ++ ":" ++ pad2 (minutes.toNat % 60)

/-- `validate_duration` from src/utils.py (the argument is already an
integer in this embedding, so the `isinstance` check is statically true). -/
def validate_duration (minutes : Int) : Bool × Option String :=
  if minutes ≤ 0 then (false, some "Duration must be greater than 0")
  else if minutes % 15 != 0 then (false, some "Duration must be a multiple of 15 minutes")
  else (true, none)

/-! ### Claim C1: week bracketing and block-level inversion -/

/-- Every padded rendering of a number below 100 has exactly two characters. -/
theorem pad2_length_two : ∀ n : Nat, n < 100 → (pad2 n).length = 2 := by decide

/-- Arithmetic core of week bracketing: the start of the 7-day block of `d`
is at most `d`. -/
theorem week_block_start_le (S d : Nat) (h : S ≤ d) : S + (d - S) / 7 * 7 ≤ d := by
  omega

/-- Arithmetic core of week bracketing: `d` is at most the (possibly clamped)
end of its 7-day block. -/
theorem le_week_block_end (S E d : Nat) (h1 : S ≤ d) (h2 : d ≤ E) :
    d ≤ if E < S + (d - S) / 7 * 7 + 6 then E else S + (d - S) / 7 * 7 + 6 := by
  split <;> omega

/-- C1.  For every date `d` in the period, `compute_week_index d` succeeds and
the week it names brackets `d`; and for every row of `get_all_weeks`, its
boundaries are those of `get_week_boundaries` at its index and
`compute_week_index` of its start date returns exactly its index. -/
theorem week_index_boundaries_inverse :
    (∀ d : Date, PERIOD_START ≤ d → d ≤ PERIOD_END →
      ∃ n s e, compute_week_index d = some n ∧ get_week_boundaries n = some (s, e) ∧
        s ≤ d ∧ d ≤ e) ∧
    (∀ w ∈ get_all_weeks,
      get_week_boundaries w.week_index = some (w.week_start, w.week_end) ∧
        compute_week_index w.week_start = some w.week_index) := by
  constructor
  · intro d h1 h2
    have hv : validate_date_in_range d = true := by
      unfold validate_date_in_range
      simp only [Bool.and_eq_true, decide_eq_true_eq]
      exact ⟨h1, h2⟩
    refine ⟨(d - PERIOD_START) / 7 + 1, PERIOD_START + (d - PERIOD_START) / 7 * 7,
      if PERIOD_END < PERIOD_START + (d - PERIOD_START) / 7 * 7 + 6 then PERIOD_END
        else PERIOD_START + (d - PERIOD_START) / 7 * 7 + 6, ?_, ?_, ?_, ?_⟩
    · simp [compute_week_index, hv]
    · simp [get_week_boundaries]
    · exact week_block_start_le PERIOD_START d h1
    · exact le_week_block_end PERIOD_START PERIOD_END d h1 h2
  · intro w hw
    revert hw
    revert w
    decide

/-- Closed instance of C1: the theorem applied to the concrete date
2024-07-04 and to the first row of `get_all_weeks`. -/
theorem week_index_boundaries_inverse_witness :
    (∃ n s e, compute_week_index (toOrdinal 2024 7 4) = some n ∧
      get_week_boundaries n = some (s, e) ∧ s ≤ toOrdinal 2024 7 4 ∧ toOrdinal 2024 7 4 ≤ e) ∧
    (get_week_boundaries (WeekRow.mk 1 PERIOD_START (PERIOD_START + 6)).week_index =
        some ((WeekRow.mk 1 PERIOD_START (PERIOD_START + 6)).week_start,
          (WeekRow.mk 1 PERIOD_START (PERIOD_START + 6)).week_end) ∧
      compute_week_index (WeekRow.mk 1 PERIOD_START (PERIOD_START + 6)).week_start =
        some (WeekRow.mk 1 PERIOD_START (PERIOD_START + 6)).week_index) :=
  ⟨week_index_boundaries_inverse.1 (toOrdinal 2024 7 4) (by decide) (by decide),
   week_index_boundaries_inverse.2 (WeekRow.mk 1 PERIOD_START (PERIOD_START + 6)) (by decide)⟩

/-! ### Claim C9: HH:MM formatting -/

/-- C9.  `format_hhmm` clamps negative input to "00:00"; on nonnegative input
it renders the hour/minute decomposition with two-digit zero padding (hours
keep their full width above 99); and the three quoted examples hold. -/
theorem format_hhmm_spec :
    (∀ m : Int, m < 0 → format_hhmm m = "00:00") ∧
    (∀ m : Int, 0 ≤ m → ∃ hrs mins : Nat, m = 60 * hrs + mins ∧ mins < 60 ∧
      format_hhmm m = pad2 hrs ++ ":" ++ pad2 mins ∧ (pad2 mins).length = 2 ∧
      (hrs < 100 → (pad2 hrs).length = 2)) ∧
    format_hhmm 0 = "00:00" ∧ format_hhmm 90 = "01:30" ∧ format_hhmm (-15) = "00:00" := by
  refine ⟨?_, ?_, by decide, by decide, by decide⟩
  · intro m hm
    simp [format_hhmm, hm]
  · intro m hm
    refine ⟨m.toNat / 60, m.toNat % 60, by omega, Nat.mod_lt _ (by norm_num), ?_,
      pad2_length_two _ (by have := Nat.mod_lt m.toNat (y := 60) (by norm_num); omega),
      fun h100 => pad2_length_two _ h100⟩
    unfold format_hhmm
    rw [if_neg (by omega)]

/-- Closed instance of C9: the clamping branch at -7 and the decomposition
branch at 90, obtained directly from the theorem. -/
theorem format_hhmm_spec_witness :
    format_hhmm (-7) = "00:00" ∧
    (∃ hrs mins : Nat, (90 : Int) = 60 * hrs + mins ∧ mins < 60 ∧
      format_hhmm 90 = pad2 hrs ++ ":" ++ pad2 mins ∧ (pad2 mins).length = 2 ∧
      (hrs < 100 → (pad2 hrs).length = 2)) :=
  ⟨format_hhmm_spec.1 (-7) (by decide), format_hhmm_spec.2.1 90 (by decide)⟩

/-! ### Python string helpers used by `normalize_matter_name` -/

/-- Whitespace test of Python `str.strip` (ASCII whitespace; the repository's
matter names are ordinary text, for which this matches Python). -/
def pyIsSpace (c : Char) : Bool :=
  c = ' ' || c = '\t' || c = '\n' || c = '\r' || c = '\x0b' || c = '\x0c'

/-- Lowercasing of one character as in Python `str.lower` (ASCII letters). -/
def pyLowerChar (c : Char) : Char :=
  if 'A' ≤ c && c ≤ 'Z' then Char.ofNat (c.toNat + 32) else c

/-- Python `str.strip` on the character list: drop whitespace from both ends. -/
def pyStrip (l : List Char) : List Char :=
  (l.dropWhile pyIsSpace).rdropWhile pyIsSpace

/-- Python `name.strip()` as a String operation (used by `upsert_matter` and
`update_matter` in src/storage.py). -/
def stripName (s : String) : String := String.mk (pyStrip s.data)

/-- `normalize_matter_name` from src/utils.py: `name.strip().lower()`. -/
def normalize_matter_name (s : String) : String :=
  String.mk ((pyStrip s.data).map pyLowerChar)

/-- Left-stripping a both-ends-stripped list changes nothing: the right strip
only removes a suffix, so the head of the left-stripped list survives and
still fails the whitespace test. -/
theorem dropWhile_rdropWhile_dropWhile {α : Type} (p : α → Bool) (l : List α) :
    ((l.dropWhile p).rdropWhile p).dropWhile p = (l.dropWhile p).rdropWhile p := by
  rcases hpre : (l.dropWhile p).rdropWhile p with _ | ⟨a, t⟩
  · rfl
  · obtain ⟨rest, hrest⟩ := List.rdropWhile_prefix p (l.dropWhile p)
    rw [hpre] at hrest
    have hne : l.dropWhile p ≠ [] := by
      rw [← hrest]; simp
    have h1 : (l.dropWhile p).head? = some a := by
      rw [← hrest]; rfl
    have h2 : (l.dropWhile p).head? = some ((l.dropWhile p).head hne) :=
      List.head?_eq_head hne
    have ha : p a = false := by
      have hh := List.head_dropWhile_not p l hne
      rw [h1] at h2
      cases h2
      exact hh
    simp [List.dropWhile_cons, ha]

/-- Python `strip` is idempotent. -/
theorem pyStrip_idempotent (l : List Char) : pyStrip (pyStrip l) = pyStrip l := by
  unfold pyStrip
  rw [dropWhile_rdropWhile_dropWhile, List.rdropWhile_idempotent]

/-- Normalizing a stripped name gives the same result as normalizing the
name itself. -/
theorem normalize_stripName (s : String) :
    normalize_matter_name (stripName s) = normalize_matter_name s := by
  show String.mk ((pyStrip (pyStrip s.data)).map pyLowerChar) = _
  rw [pyStrip_idempotent]
  rfl

/-! ### src/storage.py : data model

Record fields follow the dictionary shapes the storage module reads and
writes.  Fields the code reads with `.get(key, default)` are `Option`s or
carry the default; fields whose type the code branches on with `isinstance`
carry a sum type (`PyTime`). -/

/-- A date-like Python value held in a record field: already a string, a
`datetime.date` (by ordinal), or a `datetime.datetime` (modelled by its
`isoformat` rendering, which is all the storage code observes of it). -/
inductive PyTime where
  | str (s : String)
  | date (d : Date)
  | datetime (iso : String)
  deriving Repr, DecidableEq

/-- One action dictionary: all three keys are optional in the code's reads
(`action.get("duration_minutes", 0)`, `"action_date" in action`). -/
structure ActionRec where
  action_description : Option String := none
  duration_minutes : Option Int := none
  action_date : Option PyTime := none
  deriving Repr, DecidableEq

/-- One matter record. -/
structure Matter where
  id : String
  name : String
  case_type : String := ""
  created_at : PyTime
  deriving Repr, DecidableEq

/-- One entry record. -/
structure Entry where
  id : String
  entry_date : PyTime
  week_index : Nat
  matter_id : String
  actions : List ActionRec
  total_minutes : Int
  invoice_original_filename : Option String := none
  invoice_storage_filename : Option String := none
  invoice_path : Option String := none
  created_at : PyTime := .str ""
  updated_at : PyTime := .str ""
  deriving Repr, DecidableEq

/-- The in-memory store: the dict with "matters" and "entries" lists. -/
structure StoreData where
  matters : List Matter
  entries : List Entry
  deriving Repr, DecidableEq

/-- `get_empty_data` from src/storage.py. -/
def get_empty_data : StoreData := ⟨[], []⟩

/-! ### src/storage.py : matter operations -/

/-- `get_matter_by_id` from src/storage.py: first matter with the id. -/
def get_matter_by_id (data : StoreData) (matter_id : String) : Option Matter :=
  data.matters.find? (fun m => m.id == matter_id)

/-- `get_matter_by_name` from src/storage.py: first matter whose normalized
name matches the normalized argument. -/
def get_matter_by_name (data : StoreData) (name : String) : Option Matter :=
  data.matters.find? (fun m => normalize_matter_name m.name == normalize_matter_name name)

/-- Replace the first element satisfying the test by its image under `f`.
This models Python's in-place mutation of the object returned by a linear
search over the list. -/
def updateFirst {α : Type} (test : α → Bool) (f : α → α) : List α → List α
  | [] => []
  | x :: xs => if test x then f x :: xs else x :: updateFirst test f xs

/-- `upsert_matter` from src/storage.py.  The `generate_uuid()` identifier
and the `datetime.now().isoformat()` timestamp are passed explicitly
(state-passing of the two effects).  A normalized-name match has its
case type updated in place; otherwise a new matter with the stripped name
is appended. -/
def upsert_matter (freshId now : String) (data : StoreData) (name : String)
    (case_type : String) : Matter × StoreData :=
  match get_matter_by_name data name with
  | some existing =>
    ({ existing with case_type := case_type },
     { data with
        matters :=
          updateFirst (fun m => normalize_matter_name m.name == normalize_matter_name name)
            (fun m => { m with case_type := case_type }) data.matters })
  | none =>
    let matter : Matter :=
      { id := freshId, name := stripName name, case_type := case_type, created_at := .str now }
    (matter, { data with matters := data.matters ++ [matter] })

/-- `update_matter` from src/storage.py: set name and case type of the
matter with the given id, in place; `none` with the store unchanged when the
id is unknown.  No name-uniqueness check is performed. -/
def update_matter (data : StoreData) (matter_id name case_type : String) :
    Option Matter × StoreData :=
  match get_matter_by_id data matter_id with
  | some m =>
    (some { m with name := stripName name, case_type := case_type },
     { data with
        matters :=
          updateFirst (fun x => x.id == matter_id)
            (fun x => { x with name := stripName name, case_type := case_type }) data.matters })
  | none => (none, data)

/-! ### Claim C3: normalized-name uniqueness -/

/-- The invariant of the claim: the normalized names of the stored matters
contain no duplicate. -/
def mattersNormUnique (ms : List Matter) : Prop :=
  (ms.map fun m => normalize_matter_name m.name).Nodup

instance (ms : List Matter) : Decidable (mattersNormUnique ms) := by
  unfold mattersNormUnique
  infer_instance

/-- Mapping over `updateFirst` is the identity when `f` preserves the mapped
value. -/
theorem updateFirst_map_eq {α β : Type} (g : α → β) (test : α → Bool) (f : α → α)
    (hf : ∀ x, g (f x) = g x) : ∀ l : List α, (updateFirst test f l).map g = l.map g := by
  intro l
  induction l with
  | nil => rfl
  | cons x xs ih =>
    unfold updateFirst
    by_cases hx : test x = true
    · simp [hx, hf]
    · simp only [Bool.not_eq_true] at hx
      simp [hx, ih]

/-- `updateFirst` preserves length. -/
theorem updateFirst_length {α : Type} (test : α → Bool) (f : α → α) :
    ∀ l : List α, (updateFirst test f l).length = l.length := by
  intro l
  induction l with
  | nil => rfl
  | cons x xs ih =>
    unfold updateFirst
    by_cases hx : test x = true
    · simp [hx]
    · simp only [Bool.not_eq_true] at hx
      simp [hx, ih]

/-- Concrete store for the C3 counterexample: two matters with distinct
normalized names. -/
def c3Store : StoreData :=
  { matters := [{ id := "m1", name := "alpha", created_at := .str "t0" },
                { id := "m2", name := "beta", created_at := .str "t0" }],
    entries := [] }

/-- C3 counterexample.  The claim asserts that no Matter operation,
including renaming by id, can produce two matters with the same normalized
name.  Starting from a store satisfying the invariant, `update_matter`
renames "beta" (id m2) to "Alpha", which normalizes to the name of m1:
the invariant is violated. -/
theorem update_matter_breaks_normalized_uniqueness :
    mattersNormUnique c3Store.matters ∧
    ¬ mattersNormUnique ((update_matter c3Store "m2" "Alpha" "x").2).matters := by
  constructor
  · decide
  · decide

/-- C3 as amended.  The normalized-name uniqueness invariant holds of the
empty store and is preserved by `upsert_matter`; moreover an upsert whose
name matches an existing matter updates in place, leaving the matter count
(and every stored name) unchanged rather than duplicating.  (Renaming by id
via `update_matter` is NOT covered: see the counterexample.) -/
theorem normalized_name_unique_upsert :
    mattersNormUnique get_empty_data.matters ∧
    (∀ freshId now data name case_type, mattersNormUnique data.matters →
      mattersNormUnique ((upsert_matter freshId now data name case_type).2).matters) ∧
    (∀ freshId now data name case_type m, get_matter_by_name data name = some m →
      ((upsert_matter freshId now data name case_type).2).matters.map (fun x => x.name)
        = data.matters.map (fun x => x.name)) := by
  refine ⟨by simp [mattersNormUnique, get_empty_data], ?_, ?_⟩
  · intro freshId now data name case_type hinv
    rcases hfind : get_matter_by_name data name with _ | m
    · unfold upsert_matter
      rw [hfind]
      unfold mattersNormUnique
      simp only [List.map_append, List.nodup_append]
      refine ⟨hinv, by simp, ?_⟩
      intro a ha hb
      simp only [List.map_cons, List.map_nil, List.mem_singleton] at hb
      rw [normalize_stripName] at hb
      unfold get_matter_by_name at hfind
      rw [List.find?_eq_none] at hfind
      simp only [List.mem_map] at ha
      obtain ⟨x, hx, rfl⟩ := ha
      have hne := hfind x hx
      simp only [beq_iff_eq] at hne
      exact hne hb
    · unfold upsert_matter
      rw [hfind]
      unfold mattersNormUnique
      rw [updateFirst_map_eq (fun m => normalize_matter_name m.name)
        (fun m => normalize_matter_name m.name == normalize_matter_name name)
        (fun m => { m with case_type := case_type }) (fun x => rfl) data.matters]
      exact hinv
  · intro freshId now data name case_type m hfind
    unfold upsert_matter
    rw [hfind]
    exact updateFirst_map_eq (fun x => x.name)
      (fun m => normalize_matter_name m.name == normalize_matter_name name)
      (fun m => { m with case_type := case_type }) (fun x => rfl) data.matters

/-- Closed instance of the amended C3: upsert of a fresh name on a store
satisfying the invariant keeps it, and upsert of a whitespace/case variant
of "alpha" leaves the stored names unchanged. -/
theorem normalized_name_unique_upsert_witness :
    mattersNormUnique ((upsert_matter "m9" "t9" c3Store "Gamma" "civil").2).matters ∧
    ((upsert_matter "m8" "t8" c3Store " ALPHA " "x").2).matters.map (fun x => x.name)
      = c3Store.matters.map (fun x => x.name) :=
  ⟨normalized_name_unique_upsert.2.1 "m9" "t9" c3Store "Gamma" "civil" (by decide),
   normalized_name_unique_upsert.2.2 "m8" "t8" c3Store " ALPHA " "x"
     { id := "m1", name := "alpha", created_at := .str "t0" } (by decide)⟩

/-! ### src/storage.py : entry operations -/

/-- The optional `invoice_info` dict of `add_entry`
(keys read with `.get`, so each is optional). -/
structure InvoiceInfo where
  original_filename : Option String := none
  storage_filename : Option String := none
  path : Option String := none
  deriving Repr, DecidableEq

/-- One action's contribution to the `action_dates` list in
`add_entry`/`update_entry`: the `action_date` key must be present and hold a
string in ISO form; any failure inside the `try` (a malformed string, or the
TypeError `date.fromisoformat` raises on a non-string) is swallowed by the
bare `except: pass`. -/
def parseActionDate (a : ActionRec) : Option Date :=
  match a.action_date with
  | some (.str s) => fromisoformat s
  | _ => none

/-- The effective-date computation appearing verbatim in both `add_entry`
and `update_entry` in src/storage.py: the earliest parseable action date,
or the caller-supplied fallback date when no action date parses. -/
def calcEffectiveDate (fallback : Date) (actions : List ActionRec) : Date :=
  match actions.filterMap parseActionDate with
  | [] => fallback
  | d :: ds => ds.foldl min d

/-- `sum(a.get("duration_minutes", 0) for a in actions)`. -/
def totalMinutes (actions : List ActionRec) : Int :=
  (actions.map fun a => a.duration_minutes.getD 0).sum

/-- `add_entry` from src/storage.py.  `generate_uuid()` and
`datetime.now().isoformat()` are passed explicitly.  When the effective date
falls outside the period, `compute_week_index` raises before the entry is
appended, so the call fails (`none`) with the store unchanged. -/
def add_entry (freshId now : String) (data : StoreData) (entry_date : Date)
    (matter_id : String) (actions : List ActionRec)
    (invoice_info : Option InvoiceInfo) : Option (Entry × StoreData) :=
  let calculated_entry_date := calcEffectiveDate entry_date actions
  match compute_week_index calculated_entry_date with
  | none => none
  | some week_index =>
    let entry : Entry :=
      { id := freshId
        entry_date := .str (isoformatDate calculated_entry_date)
        week_index := week_index
        matter_id := matter_id
        actions := actions
        total_minutes := totalMinutes actions
        invoice_original_filename := invoice_info.bind (fun i => i.original_filename)
        invoice_storage_filename := invoice_info.bind (fun i => i.storage_filename)
        invoice_path := invoice_info.bind (fun i => i.path)
        created_at := .str now
        updated_at := .str now }
    some (entry, { data with entries := data.entries ++ [entry] })

/-- Outcome of `update_entry`: unknown id (Python returns `None`), an
exception escaping mid-update (carrying the store as mutated so far), or
success. -/
inductive UpdateOutcome where
  | notFound
  | raised (store : StoreData)
  | ok (entry : Entry) (store : StoreData)
  deriving Repr, DecidableEq

/-- The `invoice_info` argument of `update_entry`: Python distinguishes
`None` (keep the existing invoice), a truthy (non-empty) dict (replace) and
the falsy empty dict (remove). -/
inductive InvoiceArg where
  | keep
  | remove
  | replace (info : InvoiceInfo)
  deriving Repr, DecidableEq

/-- `update_entry` from src/storage.py.  The source mutates the found entry
field by field: `entry["entry_date"]` is assigned BEFORE
`compute_week_index` is called on the calculated date, so when that call
raises the store is left with the new entry_date and the stale week_index,
matter, actions and totals — this ordering is modelled exactly. -/
def update_entry (now : String) (data : StoreData) (entry_id : String)
    (entry_date : Date) (matter_id : String) (actions : List ActionRec)
    (invoice_info : InvoiceArg) : UpdateOutcome :=
  match data.entries.find? (fun e => e.id == entry_id) with
  | none => .notFound
  | some entry =>
    let calculated_entry_date := calcEffectiveDate entry_date actions
    let entry1 := { entry with entry_date := .str (isoformatDate calculated_entry_date) }
    match compute_week_index calculated_entry_date with
    | none =>
      .raised { data with
        entries := updateFirst (fun e => e.id == entry_id) (fun _ => entry1) data.entries }
    | some week_index =>
      let entry2 :=
        { entry1 with
          week_index := week_index
          matter_id := matter_id
          actions := actions
          total_minutes := totalMinutes actions
          updated_at := .str now }
      let entry3 :=
        match invoice_info with
        | .keep => entry2
        | .replace info =>
          { entry2 with
            invoice_original_filename := info.original_filename
            invoice_storage_filename := info.storage_filename
            invoice_path := info.path }
        | .remove =>
          { entry2 with
            invoice_original_filename := none
            invoice_storage_filename := none
            invoice_path := none }
      .ok entry3 { data with
        entries := updateFirst (fun e => e.id == entry_id) (fun _ => entry3) data.entries }

/-- Modelled from the spec: `delete_matter` is imported from the storage
module by src/app.py (line 24) and called there as
`success, msg = delete_matter(data, matter_id)` (line 837), but its
definition is missing from the provided storage source.  Per the spec
(§4.2), deletion is rejected in the `MatterInUseError` sense when any Entry
references the id, and otherwise the matter is removed; the call site fixes
the return shape to a (success flag, message) pair. -/
def delete_matter (data : StoreData) (matter_id : String) :
    (Bool × String) × StoreData :=
  if data.entries.any (fun e => e.matter_id == matter_id) then
    ((false, "MatterInUseError: matter is referenced by at least one entry"), data)
  else
    ((true, "Matter deleted"),
     { data with matters := data.matters.filter (fun m => !(m.id == matter_id)) })

/-! ### Claim C2: derived fields of `add_entry` -/

/-- A left fold of `min` lands in the folded list and bounds every element
from below. -/
theorem foldl_min_mem_and_le (ds : List Nat) :
    ∀ d : Nat, ds.foldl min d ∈ d :: ds ∧ ∀ x ∈ d :: ds, ds.foldl min d ≤ x := by
  induction ds with
  | nil => intro d; simp
  | cons a t ih =>
    intro d
    obtain ⟨hmem, hle⟩ := ih (min d a)
    constructor
    · simp only [List.foldl_cons]
      rcases List.mem_cons.mp hmem with h | h
      · rcases min_choice d a with h2 | h2
        · rw [h, h2]; exact List.mem_cons_self _ _
        · rw [h, h2]; exact List.mem_cons_of_mem _ (List.mem_cons_self _ _)
      · exact List.mem_cons_of_mem _ (List.mem_cons_of_mem _ h)
    · intro x hx
      simp only [List.foldl_cons]
      have hda : t.foldl min (min d a) ≤ min d a := hle _ (List.mem_cons_self _ _)
      rcases List.mem_cons.mp hx with h | h
      · rw [h]; exact le_trans hda (min_le_left d a)
      · rcases List.mem_cons.mp h with h2 | h2
        · rw [h2]; exact le_trans hda (min_le_right d a)
        · exact hle x (List.mem_cons_of_mem _ h2)

/-- C2.  When at least one action date parses, `add_entry` succeeds whenever
the earliest parsed date has a week index, and the created entry carries
that earliest date (in ISO form), its week index, and the sum of the action
durations; the concrete two-action example of the claim yields
total 75, entry date 2024-06-15, week 3. -/
theorem add_entry_computed_fields :
    (∀ freshId now data ed mid actions inv d ds w,
      actions.filterMap parseActionDate = d :: ds →
      compute_week_index (ds.foldl min d) = some w →
      ∃ e data2, add_entry freshId now data ed mid actions inv = some (e, data2) ∧
        e.entry_date = .str (isoformatDate (ds.foldl min d)) ∧
        e.week_index = w ∧
        e.total_minutes = totalMinutes actions ∧
        data2.entries = data.entries ++ [e]) ∧
    (∃ e data2,
      add_entry "id1" "t1" get_empty_data (toOrdinal 2024 6 1) "m1"
        [{ action_description := some "A", duration_minutes := some 30,
           action_date := some (.str "2024-06-15") },
         { action_description := some "B", duration_minutes := some 45,
           action_date := some (.str "2024-06-20") }] none
        = some (e, data2) ∧
      e.total_minutes = 75 ∧ e.entry_date = .str "2024-06-15" ∧ e.week_index = 3) := by
  constructor
  · intro freshId now data ed mid actions inv d ds w h1 h2
    unfold add_entry calcEffectiveDate
    rw [h1]
    simp only [h2]
    exact ⟨_, _, rfl, rfl, rfl, rfl, rfl⟩
  · exact ⟨_, _, rfl, rfl, rfl, rfl⟩

/-- Closed instance of C2's general part: a single dated action on an empty
store. -/
theorem add_entry_computed_fields_witness :
    ∃ e data2, add_entry "w2" "t2" get_empty_data (toOrdinal 2024 6 3) "m2"
      [{ action_description := some "C", duration_minutes := some 15,
         action_date := some (.str "2024-07-01") }] none = some (e, data2) ∧
      e.entry_date = .str (isoformatDate (List.foldl min (toOrdinal 2024 7 1) [])) ∧
      e.week_index = 5 ∧
      e.total_minutes = totalMinutes
        [{ action_description := some "C", duration_minutes := some 15,
           action_date := some (.str "2024-07-01") }] ∧
      data2.entries = get_empty_data.entries ++ [e] :=
  add_entry_computed_fields.1 "w2" "t2" get_empty_data (toOrdinal 2024 6 3) "m2"
    [{ action_description := some "C", duration_minutes := some 15,
       action_date := some (.str "2024-07-01") }] none
    (toOrdinal 2024 7 1) [] 5 (by decide) (by decide)

/-! ### Claim C10: unparseable action dates are silently skipped -/

/-- Store with a single entry "e1", used for the update half of C10. -/
def c10Store : StoreData :=
  { matters := [],
    entries := [{ id := "e1", entry_date := .str "2024-06-10", week_index := 2,
                  matter_id := "m3", actions := [], total_minutes := 0 }] }

/-- C10.  The effective date is the minimum over only the parseable action
dates, and falls back to the caller-supplied date when none parses; an
unparseable date string raises no error: concretely, adding with dates
["not-a-date", "2024-06-20"] succeeds with entry date 2024-06-20, adding
with the single date "junk" succeeds with the fallback 2024-06-05, and
updating with the single date "junk" succeeds with the fallback. -/
theorem unparseable_action_dates_skipped :
    (∀ fallback actions d ds, actions.filterMap parseActionDate = d :: ds →
      calcEffectiveDate fallback actions ∈ d :: ds ∧
      ∀ x ∈ d :: ds, calcEffectiveDate fallback actions ≤ x) ∧
    (∀ fallback actions, actions.filterMap parseActionDate = [] →
      calcEffectiveDate fallback actions = fallback) ∧
    (∃ e data2, add_entry "x1" "t3" get_empty_data (toOrdinal 2024 6 5) "m3"
        [{ action_description := some "A", duration_minutes := some 30,
           action_date := some (.str "not-a-date") },
         { action_description := some "B", duration_minutes := some 45,
           action_date := some (.str "2024-06-20") }] none = some (e, data2) ∧
      e.entry_date = .str "2024-06-20") ∧
    (∃ e data2, add_entry "x2" "t4" get_empty_data (toOrdinal 2024 6 5) "m3"
        [{ action_description := some "A", duration_minutes := some 30,
           action_date := some (.str "junk") }] none = some (e, data2) ∧
      e.entry_date = .str "2024-06-05") ∧
    (∃ e data2, update_entry "t5" c10Store "e1" (toOrdinal 2024 6 5) "m3"
        [{ action_description := some "A", duration_minutes := some 30,
           action_date := some (.str "junk") }] .keep = .ok e data2 ∧
      e.entry_date = .str "2024-06-05") := by
  refine ⟨?_, ?_, ⟨_, _, rfl, rfl⟩, ⟨_, _, rfl, rfl⟩, ⟨_, _, rfl, rfl⟩⟩
  · intro fallback actions d ds h
    unfold calcEffectiveDate
    rw [h]
    exact foldl_min_mem_and_le ds d
  · intro fallback actions h
    unfold calcEffectiveDate
    rw [h]

/-- Closed instance of C10's general parts: with parsed dates
[2024-06-20, 2024-06-12] the effective date is their minimum; with no
parsed dates it is the fallback. -/
theorem unparseable_action_dates_skipped_witness :
    (calcEffectiveDate (toOrdinal 2024 6 5)
        [{ action_date := some (.str "2024-06-20") },
         { action_date := some (.str "2024-06-12") }]
      ∈ [toOrdinal 2024 6 20, toOrdinal 2024 6 12] ∧
      ∀ x ∈ [toOrdinal 2024 6 20, toOrdinal 2024 6 12],
        calcEffectiveDate (toOrdinal 2024 6 5)
          [{ action_date := some (.str "2024-06-20") },
           { action_date := some (.str "2024-06-12") }] ≤ x) ∧
    calcEffectiveDate (toOrdinal 2024 6 5)
      [{ action_date := some (.str "nonsense") }] = toOrdinal 2024 6 5 :=
  ⟨unparseable_action_dates_skipped.1 (toOrdinal 2024 6 5)
      [{ action_date := some (.str "2024-06-20") },
       { action_date := some (.str "2024-06-12") }]
      (toOrdinal 2024 6 20) [toOrdinal 2024 6 12] (by decide),
   unparseable_action_dates_skipped.2.1 (toOrdinal 2024 6 5)
      [{ action_date := some (.str "nonsense") }] (by decide)⟩

/-! ### Claim C5: update_entry error handling (partial mutation) -/

/-- Store with a single entry "e1" in week 2, used as the C5 failing input. -/
def c5Store : StoreData :=
  { matters := [],
    entries := [{ id := "e1", entry_date := .str "2024-06-10", week_index := 2,
                  matter_id := "m1", actions := [], total_minutes := 0 }] }

/-- The store state `update_entry` leaves behind on the C5 failing input:
note the new entry_date next to the stale week_index. -/
def c5StoreAfter : StoreData :=
  { matters := [],
    entries := [{ id := "e1", entry_date := .str "2025-02-01", week_index := 2,
                  matter_id := "m1", actions := [], total_minutes := 0 }] }

/-- C5 failing input, evaluated.  Updating the present id "e1" with an
action dated 2025-02-01 (parseable, outside the period) makes
`compute_week_index` raise AFTER the source has already assigned
`entry["entry_date"]`: the exception escapes with the store holding the new
entry_date "2025-02-01" next to the stale week_index 2, matter, actions and
total — a partially applied update, contradicting the claim that an update
on a present id fully succeeds with all derived fields consistent.  (For an
id not present, `update_entry` does return not-found with the store
untouched; the failure is only in the present-id half of the claim.) -/
theorem update_entry_partial_mutation :
    update_entry "t6" c5Store "e1" (toOrdinal 2024 6 10) "m1"
      [{ action_description := some "A", duration_minutes := some 30,
         action_date := some (.str "2025-02-01") }] .keep
      = .raised c5StoreAfter := by
  decide

/-! ### Claim C4: delete_matter (modelled from the spec) -/

/-- C4.  Deleting a matter referenced by at least one entry is rejected and
leaves the store unchanged; deleting an unreferenced matter succeeds,
leaves the entries unchanged, and removes exactly the matters bearing that
id from the matters list. -/
theorem delete_matter_spec :
    ∀ data matter_id,
      ((∃ e ∈ data.entries, e.matter_id = matter_id) →
        (delete_matter data matter_id).1.1 = false ∧
        (delete_matter data matter_id).2 = data) ∧
      ((∀ e ∈ data.entries, e.matter_id ≠ matter_id) →
        (delete_matter data matter_id).1.1 = true ∧
        (delete_matter data matter_id).2.entries = data.entries ∧
        ∀ m, m ∈ (delete_matter data matter_id).2.matters ↔
          m ∈ data.matters ∧ m.id ≠ matter_id) := by
  intro data matter_id
  constructor
  · intro ⟨e, he, hmid⟩
    have hany : data.entries.any (fun e => e.matter_id == matter_id) = true := by
      rw [List.any_eq_true]
      exact ⟨e, he, by simp [hmid]⟩
    unfold delete_matter
    rw [if_pos hany]
    exact ⟨rfl, rfl⟩
  · intro hnone
    have hany : data.entries.any (fun e => e.matter_id == matter_id) = false := by
      rw [Bool.eq_false_iff]
      intro hc
      rw [List.any_eq_true] at hc
      obtain ⟨e, he, heq⟩ := hc
      simp only [beq_iff_eq] at heq
      exact hnone e he heq
    unfold delete_matter
    rw [if_neg (by simp [hany])]
    refine ⟨rfl, rfl, ?_⟩
    intro m
    rw [List.mem_filter]
    simp

/-- Closed instance of C4: in a store where entry e1 references matter m1
and matter m2 is unreferenced, deleting m1 is rejected unchanged and
deleting m2 succeeds removing exactly m2. -/
def c4Store : StoreData :=
  { matters := [{ id := "m1", name := "alpha", created_at := .str "t0" },
                { id := "m2", name := "beta", created_at := .str "t0" }],
    entries := [{ id := "e1", entry_date := .str "2024-06-10", week_index := 2,
                  matter_id := "m1", actions := [], total_minutes := 0 }] }

theorem delete_matter_spec_witness :
    ((delete_matter c4Store "m1").1.1 = false ∧
      (delete_matter c4Store "m1").2 = c4Store) ∧
    ((delete_matter c4Store "m2").1.1 = true ∧
      (delete_matter c4Store "m2").2.entries = c4Store.entries ∧
      ∀ m, m ∈ (delete_matter c4Store "m2").2.matters ↔
        m ∈ c4Store.matters ∧ m.id ≠ "m2") :=
  ⟨(delete_matter_spec c4Store "m1").1
      ⟨{ id := "e1", entry_date := .str "2024-06-10", week_index := 2,
         matter_id := "m1", actions := [], total_minutes := 0 }, by decide, rfl⟩,
   (delete_matter_spec c4Store "m2").2 (by decide)⟩

/-! ### Claim C8: serialize/deserialize round-trip -/

/-- `_serialize_data` on one matter record: `created_at` is kept when it is
already a string and rendered with `isoformat()` otherwise; the remaining
fields (id, name, case_type) are copied. -/
def serializeMatter (m : Matter) : Matter :=
  { m with created_at :=
      match m.created_at with
      | .str s => .str s
      | .date d => .str (isoformatDate d)
      | .datetime s => .str s }

/-- `_serialize_data` on one entry record: `entry_date` is rendered with
`isoformat()` when it is a date value (`datetime.datetime` is a subclass of
`datetime.date`, so both variants match the `isinstance(entry_date, date)`
branch); `created_at`/`updated_at` are rendered only when they are
`datetime.datetime` values; every other field, including the actions list,
is copied through. -/
def serializeEntry (e : Entry) : Entry :=
  { e with
    entry_date :=
      match e.entry_date with
      | .str s => .str s
      | .date d => .str (isoformatDate d)
      | .datetime s => .str s
    created_at :=
      match e.created_at with
      | .datetime s => .str s
      | other => other
    updated_at :=
      match e.updated_at with
      | .datetime s => .str s
      | other => other }

/-- `_serialize_data` from src/storage.py over the typed records. -/
def serialize_data (data : StoreData) : StoreData :=
  { matters := data.matters.map serializeMatter,
    entries := data.entries.map serializeEntry }

/-- The migration step of `_deserialize_data`: an action lacking an
`action_date` key is backfilled with the owning entry's date. -/
def migrateActionT (entry_date : PyTime) (a : ActionRec) : ActionRec :=
  match a.action_date with
  | some _ => a
  | none => { a with action_date := some entry_date }

/-- `_deserialize_data` on one entry record: fields are copied and each
action is migrated against the entry's date. -/
def deserializeEntryT (e : Entry) : Entry :=
  { e with actions := e.actions.map (migrateActionT e.entry_date) }

/-- `_deserialize_data` from src/storage.py over the typed records: matter
fields are copied unchanged; entries undergo the action-date migration. -/
def deserialize_data (data : StoreData) : StoreData :=
  { matters := data.matters,
    entries := data.entries.map deserializeEntryT }

/-- The string test of the `isinstance(x, str)` branches. -/
def isStrTime : PyTime → Bool
  | .str _ => true
  | _ => false

/-- A matter record is valid in the sense of the claim when its
`created_at` is a string. -/
def validMatterRec (m : Matter) : Bool := isStrTime m.created_at

/-- An entry record is valid in the sense of the claim when its dates are
strings and every action carries an `action_date`. -/
def validEntryRec (e : Entry) : Bool :=
  isStrTime e.entry_date && isStrTime e.created_at && isStrTime e.updated_at &&
  e.actions.all (fun a => a.action_date.isSome)

/-- Mapping a function that fixes every element of a list is the identity. -/
theorem map_eq_self_of_forall {α : Type} (f : α → α) :
    ∀ l : List α, (∀ x ∈ l, f x = x) → l.map f = l := by
  intro l h
  induction l with
  | nil => rfl
  | cons a t ih =>
    simp only [List.map_cons]
    rw [h a (by simp), ih (fun x hx => h x (by simp [hx]))]

/-- Serialization fixes a valid matter record. -/
theorem serializeMatter_of_valid (m : Matter) (h : validMatterRec m = true) :
    serializeMatter m = m := by
  cases m with
  | mk id name ct ca =>
    cases ca with
    | str s => rfl
    | date d => simp [validMatterRec, isStrTime] at h
    | datetime s => simp [validMatterRec, isStrTime] at h

/-- Deserialization inverts serialization on a valid entry record. -/
theorem deserializeEntryT_serializeEntry_of_valid (e : Entry)
    (h : validEntryRec e = true) : deserializeEntryT (serializeEntry e) = e := by
  unfold validEntryRec at h
  simp only [Bool.and_eq_true] at h
  obtain ⟨⟨⟨h1, h2⟩, h3⟩, h4⟩ := h
  cases e with
  | mk id ed wi mid acts tm i1 i2 i3 ca ua =>
    cases ed with
    | date d => simp [isStrTime] at h1
    | datetime s => simp [isStrTime] at h1
    | str s =>
      cases ca with
      | date d => simp [isStrTime] at h2
      | datetime s2 => simp [isStrTime] at h2
      | str s2 =>
        cases ua with
        | date d => simp [isStrTime] at h3
        | datetime s3 => simp [isStrTime] at h3
        | str s3 =>
          unfold serializeEntry deserializeEntryT
          simp only [Entry.mk.injEq, true_and]
          constructor
          · rw [map_eq_self_of_forall]
            intro a ha
            have hsome := List.all_eq_true.mp h4 a ha
            unfold migrateActionT
            cases hd : a.action_date with
            | some t => rfl
            | none => rw [hd] at hsome; simp at hsome
          · trivial

/-- C8.  For every store state whose matter records carry string
`created_at` fields and whose entry records carry string dates and
date-bearing actions, deserializing the serialized state gives back the
state, field for field. -/
theorem serialize_deserialize_roundtrip :
    ∀ data : StoreData,
      (∀ m ∈ data.matters, validMatterRec m = true) →
      (∀ e ∈ data.entries, validEntryRec e = true) →
      deserialize_data (serialize_data data) = data := by
  intro data hm he
  cases data with
  | mk ms es =>
    unfold serialize_data deserialize_data
    simp only [StoreData.mk.injEq, List.map_map]
    constructor
    · exact map_eq_self_of_forall _ ms (fun m hmm => serializeMatter_of_valid m (hm m hmm))
    · exact map_eq_self_of_forall _ es
        (fun e hee => deserializeEntryT_serializeEntry_of_valid e (he e hee))

/-- A small valid store for the C8 witness. -/
def c8Store : StoreData :=
  { matters := [{ id := "m1", name := "alpha", case_type := "civil",
                  created_at := .str "2024-06-01T10:00:00" }],
    entries := [{ id := "e1", entry_date := .str "2024-06-10", week_index := 2,
                  matter_id := "m1",
                  actions := [{ action_description := some "A",
                                duration_minutes := some 30,
                                action_date := some (.str "2024-06-10") }],
                  total_minutes := 30,
                  created_at := .str "2024-06-01T10:00:00",
                  updated_at := .str "2024-06-01T10:00:00" }] }

/-- Closed instance of C8 at a one-matter, one-entry store. -/
theorem serialize_deserialize_roundtrip_witness :
    deserialize_data (serialize_data c8Store) = c8Store :=
  serialize_deserialize_roundtrip c8Store (by decide) (by decide)

/-! ### Claim C7: atomic save -/

/-- The fragment of the filesystem that `save_data` touches.  File contents
are modelled at the value level by the serialized store they hold. -/
structure FSState where
  dataFile : Option StoreData
  backupFile : Option StoreData
  tempFile : Option StoreData
  deriving Repr, DecidableEq

/-- Fault injection for the three I/O steps of `save_data`: the best-effort
backup copy, the write to the temporary file, and the atomic rename. -/
structure SaveFaults where
  backupFails : Bool
  tempWriteFails : Bool
  renameFails : Bool
  deriving Repr, DecidableEq

/-- `save_data` from src/storage.py over the filesystem model, following
the step order of the source: a backup copy of the existing data file
guarded by its own `except: pass` (so its failure changes nothing and the
save continues); `_serialize_data`; `mkstemp` plus the temp write, whose
failure is caught by the handler that removes the temp file and re-raises
`Exception("Failed to save data: ...")` around the cause; and
`shutil.move`, guarded by the same handler.  Error results carry the
message and the filesystem state left behind. -/
def save_data (faults : SaveFaults) (fs : FSState) (data : StoreData) :
    Except (String × FSState) FSState :=
  let fs1 :=
    if fs.dataFile.isSome && !faults.backupFails then
      { fs with backupFile := fs.dataFile }
    else fs
  let serialized := serialize_data data
  if faults.tempWriteFails then
    .error ("Failed to save data: " ++ "temp write failed", { fs1 with tempFile := none })
  else if faults.renameFails then
    .error ("Failed to save data: " ++ "rename failed",
      { fs1 with tempFile := none })
  else
    .ok { fs1 with dataFile := some serialized, tempFile := none }

/-- C7.  If the temp write or the rename fails, `save_data` raises a
SaveError-style exception whose message wraps the underlying cause, the
temp file is removed, and the previously committed data file is unchanged
(byte for byte, i.e. the modelled content is identical); a backup-copy
failure alone never makes the save fail, and a fault-free save (whatever
the backup fault flag) commits the serialized state. -/
theorem save_data_error_handling :
    ∀ faults fs data,
      ((faults.tempWriteFails = true ∨ faults.renameFails = true) →
        ∃ msg fs2, save_data faults fs data = .error (msg, fs2) ∧
          fs2.dataFile = fs.dataFile ∧
          fs2.tempFile = none ∧
          ∃ cause, msg = "Failed to save data: " ++ cause) ∧
      (faults.tempWriteFails = false → faults.renameFails = false →
        ∃ fs2, save_data faults fs data = .ok fs2 ∧
          fs2.dataFile = some (serialize_data data) ∧ fs2.tempFile = none) := by
  intro faults fs data
  cases faults with
  | mk b w r =>
    have hdf : (if fs.dataFile.isSome && !b then
        { fs with backupFile := fs.dataFile } else fs).dataFile = fs.dataFile := by
      split <;> rfl
    cases w
    · cases r
      · constructor
        · intro h
          simp only [] at h
          rcases h with h | h <;> exact absurd h (by simp)
        · intro _ _
          exact ⟨_, rfl, rfl, rfl⟩
      · constructor
        · intro _
          refine ⟨_, _, rfl, ?_, rfl, "rename failed", rfl⟩
          exact hdf
        · intro _ hc
          exact absurd hc (by simp)
    · constructor
      · intro _
        refine ⟨_, _, rfl, ?_, rfl, "temp write failed", rfl⟩
        exact hdf
      · intro hc _
        exact absurd hc (by simp)

/-- Closed instance of C7: with a committed file present and the backup step
also failing, a rename fault yields a wrapped error, a removed temp file and
an untouched data file; and with only the backup step failing the save
commits. -/
theorem save_data_error_handling_witness :
    (∃ msg fs2,
      save_data ⟨true, false, true⟩ ⟨some get_empty_data, none, none⟩ get_empty_data
        = .error (msg, fs2) ∧
      fs2.dataFile = (⟨some get_empty_data, none, none⟩ : FSState).dataFile ∧
      fs2.tempFile = none ∧ ∃ cause, msg = "Failed to save data: " ++ cause) ∧
    (∃ fs2,
      save_data ⟨true, false, false⟩ ⟨some get_empty_data, none, none⟩ get_empty_data
        = .ok fs2 ∧
      fs2.dataFile = some (serialize_data get_empty_data) ∧ fs2.tempFile = none) :=
  ⟨(save_data_error_handling ⟨true, false, true⟩
      ⟨some get_empty_data, none, none⟩ get_empty_data).1 (Or.inr rfl),
   (save_data_error_handling ⟨true, false, false⟩
      ⟨some get_empty_data, none, none⟩ get_empty_data).2 rfl rfl⟩

/-! ### Claim C6: load_data over a JSON value model -/

/-- A parsed JSON value, as `json.load` produces it. -/
inductive JVal where
  | jnull
  | jbool (b : Bool)
  | jnum (n : Int)
  | jstr (s : String)
  | jarr (elems : List JVal)
  | jobj (fields : List (String × JVal))

/-- Key lookup in an object's field list (first occurrence). -/
def jlookup : List (String × JVal) → String → Option JVal
  | [], _ => none
  | kv :: rest, key => if kv.1 == key then some kv.2 else jlookup rest key

/-- `isinstance(v, dict)`. -/
def isJObj : JVal → Bool
  | .jobj _ => true
  | _ => false

/-- Python iteration `for x in v`: lists yield their elements, strings yield
their characters as one-character strings, dicts yield their keys; every
other value raises TypeError (`none`). -/
def pyIterate : JVal → Option (List JVal)
  | .jarr xs => some xs
  | .jstr s => some (s.data.map fun c => .jstr (String.mk [c]))
  | .jobj kvs => some (kvs.map fun kv => .jstr kv.1)
  | _ => none

/-- Contiguous-sublist test (the substring test of Python `key in str`). -/
def substrTest : List Char → List Char → Bool
  | needle, [] => needle.isEmpty
  | needle, h :: t => needle.isPrefixOf (h :: t) || substrTest needle t

/-- Python `key in v` for a string key: key membership on dicts, substring
test on strings, element equality on lists; TypeError (`none`) otherwise. -/
def pyContains (v : JVal) (key : String) : Option Bool :=
  match v with
  | .jobj kvs => some (jlookup kvs key).isSome
  | .jstr s => some (substrTest key.data s.data)
  | .jarr xs => some (xs.any fun x => match x with | .jstr s => s == key | _ => false)
  | _ => none

/-- Python `v[key]` for a string key: KeyError on a dict without the key,
TypeError on non-dicts. -/
def pyGetItem (v : JVal) (key : String) : Except String JVal :=
  match v with
  | .jobj kvs =>
    match jlookup kvs key with
    | some x => .ok x
    | none => .error "KeyError"
  | _ => .error "TypeError"

/-- Python `d.get(key, dflt)` on a dict's field list. -/
def jgetD (kvs : List (String × JVal)) (key : String) (dflt : JVal) : JVal :=
  (jlookup kvs key).getD dflt

/-- The required matter fields checked by `load_data`. -/
def requiredMatterFields : List String := ["id", "name", "created_at"]

/-- The required entry fields checked by `load_data`. -/
def requiredEntryFields : List String :=
  ["id", "entry_date", "week_index", "matter_id", "actions", "total_minutes"]

/-- `key in record` for the validation loops (records reaching the check are
objects; the claim-level reading of a non-object record is that it has no
keys). -/
def hasKey (v : JVal) (key : String) : Bool :=
  match v with
  | .jobj kvs => (jlookup kvs key).isSome
  | _ => false

/-- The matters validation loop of `load_data`: each record must be an
object carrying every required field. -/
def validateMatterRecords : List JVal → Except String Unit
  | [] => .ok ()
  | m :: rest =>
    match m with
    | .jobj _ =>
      if requiredMatterFields.all (fun f => hasKey m f) then
        validateMatterRecords rest
      else .error "Matter missing required field"
    | _ => .error "Matter is not a valid object"

/-- The entries validation loop of `load_data`: each record must be an
object carrying every required field, and its `actions` value must be a
list (`isinstance(entry.get("actions"), list)`). -/
def validateEntryRecords : List JVal → Except String Unit
  | [] => .ok ()
  | e :: rest =>
    match e with
    | .jobj kvs =>
      if requiredEntryFields.all (fun f => hasKey e f) then
        match jlookup kvs "actions" with
        | some (.jarr _) => validateEntryRecords rest
        | _ => .error "Entry actions must be an array"
      else .error "Entry missing required field"
    | _ => .error "Entry is not a valid object"

/-- The per-action migration of `_deserialize_data`:
`if "action_date" not in action: action["action_date"] = entry_date`.
The `in` test raises TypeError on non-containers, and the assignment raises
TypeError on anything but a dict. -/
def migrateAction (entry_date : JVal) (a : JVal) : Except String JVal :=
  match pyContains a "action_date" with
  | none => .error "TypeError"
  | some true => .ok a
  | some false =>
    match a with
    | .jobj kvs => .ok (.jobj (kvs ++ [("action_date", entry_date)]))
    | _ => .error "TypeError"

/-- `_deserialize_data` on one matter record: the result dict holds id,
name, case_type (defaulted to the empty string) and created_at. -/
def deserializeMatterRaw (m : JVal) : Except String JVal := do
  let i ← pyGetItem m "id"
  let n ← pyGetItem m "name"
  let c := match m with
    | .jobj kvs => jgetD kvs "case_type" (.jstr "")
    | _ => .jstr ""
  let t ← pyGetItem m "created_at"
  .ok (.jobj [("id", i), ("name", n), ("case_type", c), ("created_at", t)])

/-- `_deserialize_data` on one entry record: reads `entry_date`, migrates
every action against it, and builds the eleven-field result dict. -/
def deserializeEntryRaw (e : JVal) : Except String JVal :=
  match e with
  | .jobj kvs => do
    let entryDate := jgetD kvs "entry_date" .jnull
    let actionsV := jgetD kvs "actions" (.jarr [])
    let items ←
      match pyIterate actionsV with
      | some xs => Except.ok xs
      | none => Except.error "TypeError"
    let migrated ← items.mapM (migrateAction entryDate)
    let i ← pyGetItem e "id"
    let wk ← pyGetItem e "week_index"
    let mid ← pyGetItem e "matter_id"
    let tm ← pyGetItem e "total_minutes"
    .ok (.jobj
      [("id", i), ("entry_date", entryDate), ("week_index", wk),
       ("matter_id", mid), ("actions", .jarr migrated), ("total_minutes", tm),
       ("invoice_original_filename", jgetD kvs "invoice_original_filename" .jnull),
       ("invoice_storage_filename", jgetD kvs "invoice_storage_filename" .jnull),
       ("invoice_path", jgetD kvs "invoice_path" .jnull),
       ("created_at", jgetD kvs "created_at" (.jstr "")),
       ("updated_at", jgetD kvs "updated_at" (.jstr ""))])
  | _ => .error "AttributeError"

/-- The state `load_data` returns: the deserialized matters and entries. -/
structure RawStore where
  matters : List JVal
  entries : List JVal

/-- What the data file can present to `load_data`: absent, present but not
parseable as JSON, or a parsed value. -/
inductive LoadInput where
  | absent
  | badJson
  | parsed (v : JVal)

/-- `load_data` from src/storage.py: empty state when the file is absent;
an error for unparseable JSON; otherwise the structural validation of the
source in order (object check, container-presence check, matters loop,
entries loop) followed by `_deserialize_data`.  Every exception inside the
`try` is rewrapped by the source's handlers; only the error fact and the
cause matter here, not the exact message texts. -/
def load_data (inp : LoadInput) : Except String RawStore :=
  match inp with
  | .absent => .ok ⟨[], []⟩
  | .badJson => .error "Data file is corrupted (invalid JSON)"
  | .parsed raw =>
    match raw with
    | .jobj kvs =>
      if ((jlookup kvs "matters").isSome && (jlookup kvs "entries").isSome : Bool) then
        match pyIterate (jgetD kvs "matters" (.jarr [])) with
        | none => .error "Failed to load data: matters is not iterable"
        | some ms =>
          match validateMatterRecords ms with
          | .error msg => .error msg
          | .ok _ =>
            match pyIterate (jgetD kvs "entries" (.jarr [])) with
            | none => .error "Failed to load data: entries is not iterable"
            | some es =>
              match validateEntryRecords es with
              | .error msg => .error msg
              | .ok _ =>
                match ms.mapM deserializeMatterRaw with
                | .error msg => .error msg
                | .ok dm =>
                  match es.mapM deserializeEntryRaw with
                  | .error msg => .error msg
                  | .ok de => .ok ⟨dm, de⟩
      else .error "Data file must contain matters and entries arrays"
    | _ => .error "Data file must contain a JSON object"

/-- True exactly when `load_data` raises. -/
def loadFails (inp : LoadInput) : Bool :=
  match load_data inp with
  | .error _ => true
  | .ok _ => false

/-- The record's `actions` value is a sequence (the claim's "actions field
is a sequence" condition; also the `isinstance(entry.get("actions"), list)`
test of the source on object records). -/
def actionsIsList : JVal → Bool
  | .jobj kvs =>
    match jlookup kvs "actions" with
    | some (.jarr _) => true
    | _ => false
  | _ => false

/-- The failure condition exactly as the claim words it (this definition
follows the claim's sentence, not the source, and exists to be compared
with `load_data`): the file is not valid structured data, is not an object,
is missing the top-level matters or entries container, contains a Matter
record missing id/name/created_at, contains an Entry record missing
id/entry_date/week_index/matter_id/actions/total_minutes, or contains an
Entry whose actions field is not a sequence. -/
def claimSaysLoadFails (inp : LoadInput) : Bool :=
  match inp with
  | .absent => false
  | .badJson => true
  | .parsed v =>
    match v with
    | .jobj kvs =>
      !((jlookup kvs "matters").isSome && (jlookup kvs "entries").isSome)
      || (match jlookup kvs "matters" with
          | some (.jarr ms) =>
            ms.any (fun m => !(requiredMatterFields.all (fun f => hasKey m f)))
          | _ => false)
      || (match jlookup kvs "entries" with
          | some (.jarr es) =>
            es.any (fun e =>
              !(requiredEntryFields.all (fun f => hasKey e f))
              || !(actionsIsList e))
          | _ => false)
    | _ => true

/-- Inputs within the amended claim's scope: the matters and entries
containers, when present, are sequences of objects, and each entry's
actions value, when a sequence, holds only objects. -/
def wellShapedInput (inp : LoadInput) : Bool :=
  match inp with
  | .parsed (.jobj kvs) =>
    (match jlookup kvs "matters" with
     | some (.jarr ms) => ms.all isJObj
     | some _ => false
     | none => true) &&
    (match jlookup kvs "entries" with
     | some (.jarr es) =>
       es.all (fun e =>
         isJObj e &&
         (match e with
          | .jobj ekvs =>
            match jlookup ekvs "actions" with
            | some (.jarr as) => as.all isJObj
            | _ => true
          | _ => true))
     | some _ => false
     | none => true)
  | _ => true

/-- C6 counterexample input: a structurally valid file whose single entry
has all required fields and a sequence-valued actions field, but one action
element is the number 5 rather than an object. -/
def c6BadInput : LoadInput :=
  .parsed (.jobj
    [("matters", .jarr []),
     ("entries", .jarr
       [.jobj [("id", .jstr "e1"), ("entry_date", .jstr "2024-06-03"),
               ("week_index", .jnum 1), ("matter_id", .jstr "m1"),
               ("actions", .jarr [.jnum 5]), ("total_minutes", .jnum 15)]])])

/-- Whether an Except value is an error. -/
def exFails {α : Type} : Except String α → Bool
  | .error _ => true
  | .ok _ => false

/-- Lookup distributes over appended field lists: the left list wins. -/
theorem jlookup_append (l1 l2 : List (String × JVal)) (key : String) :
    jlookup (l1 ++ l2) key =
      match jlookup l1 key with
      | some v => some v
      | none => jlookup l2 key := by
  induction l1 with
  | nil => rfl
  | cons kv rest ih =>
    by_cases hk : (kv.1 == key) = true
    · simp [jlookup, hk]
    · simp only [Bool.not_eq_true] at hk
      simp [jlookup, hk, ih]

/-- A `mapM` over `Except` succeeds when the function succeeds on every
element. -/
theorem mapM_ok_of_forall {α β : Type} (f : α → Except String β) :
    ∀ l : List α, (∀ x ∈ l, ∃ y, f x = .ok y) → ∃ l2, l.mapM f = .ok l2 := by
  intro l h
  induction l with
  | nil => exact ⟨[], rfl⟩
  | cons x xs ih =>
    obtain ⟨y, hy⟩ := h x (by simp)
    obtain ⟨ys, hys⟩ := ih (fun z hz => h z (by simp [hz]))
    refine ⟨y :: ys, ?_⟩
    rw [List.mapM_cons]
    simp only [bind, Except.bind, hy, hys]
    rfl

/-- Every element of a successful `mapM` image arises from some source
element. -/
theorem mapM_ok_mem {α β : Type} (f : α → Except String β) :
    ∀ l : List α, ∀ l2 : List β, l.mapM f = .ok l2 →
      ∀ y ∈ l2, ∃ x ∈ l, f x = .ok y := by
  intro l
  induction l with
  | nil =>
    intro l2 h y hy
    rw [List.mapM_nil] at h
    cases h
    simp at hy
  | cons x xs ih =>
    intro l2 h y hy
    rw [List.mapM_cons] at h
    rcases hx : f x with msg | z
    · rw [hx] at h
      simp only [bind, Except.bind] at h
      cases h
    · rw [hx] at h
      simp only [bind, Except.bind] at h
      rcases hxs : xs.mapM f with msg | zs
      · rw [hxs] at h
        cases h
      · rw [hxs] at h
        simp only [pure, Except.pure] at h
        cases h
        rcases List.mem_cons.mp hy with h2 | h2
        · exact ⟨x, by simp, by rw [hx, h2]⟩
        · obtain ⟨x2, hx2, hfx2⟩ := ih zs hxs y h2
          exact ⟨x2, by simp [hx2], hfx2⟩

/-- Over object records, the matters validation loop fails exactly when some
record misses a required field. -/
theorem validateMatterRecords_fails (ms : List JVal) (h : ms.all isJObj = true) :
    exFails (validateMatterRecords ms)
      = ms.any (fun m => !(requiredMatterFields.all (fun f => hasKey m f))) := by
  induction ms with
  | nil => rfl
  | cons m rest ih =>
    simp only [List.all_cons, Bool.and_eq_true] at h
    obtain ⟨hm, hrest⟩ := h
    cases m with
    | jobj kvs =>
      unfold validateMatterRecords
      by_cases hreq : requiredMatterFields.all (fun f => hasKey (.jobj kvs) f) = true
      · rw [if_pos hreq]
        simp [List.any_cons, hreq, ih hrest]
      · simp only [Bool.not_eq_true] at hreq
        rw [if_neg (by simp [hreq])]
        simp [List.any_cons, hreq, exFails]
    | jnull => simp [isJObj] at hm
    | jbool b => simp [isJObj] at hm
    | jnum n => simp [isJObj] at hm
    | jstr s => simp [isJObj] at hm
    | jarr xs => simp [isJObj] at hm

/-- Over object records, the entries validation loop fails exactly when some
record misses a required field or has a non-sequence actions value. -/
theorem validateEntryRecords_fails (es : List JVal) (h : es.all isJObj = true) :
    exFails (validateEntryRecords es)
      = es.any (fun e =>
          !(requiredEntryFields.all (fun f => hasKey e f)) || !(actionsIsList e)) := by
  induction es with
  | nil => rfl
  | cons e rest ih =>
    simp only [List.all_cons, Bool.and_eq_true] at h
    obtain ⟨he, hrest⟩ := h
    cases e with
    | jobj kvs =>
      have hstep : validateEntryRecords (JVal.jobj kvs :: rest)
          = if requiredEntryFields.all (fun f => hasKey (.jobj kvs) f) then
              match jlookup kvs "actions" with
              | some (.jarr _) => validateEntryRecords rest
              | _ => Except.error "Entry actions must be an array"
            else Except.error "Entry missing required field" := rfl
      rw [hstep]
      by_cases hreq : requiredEntryFields.all (fun f => hasKey (.jobj kvs) f) = true
      · rw [if_pos hreq]
        rcases hl : jlookup kvs "actions" with _ | v
        · simp [List.any_cons, hreq, exFails, actionsIsList, hl]
        · cases v with
          | jarr as =>
            have hact : actionsIsList (JVal.jobj kvs) = true := by
              simp [actionsIsList, hl]
            simp [List.any_cons, hreq, hact, ih hrest]
          | jnull => simp [List.any_cons, hreq, exFails, actionsIsList, hl]
          | jbool b => simp [List.any_cons, hreq, exFails, actionsIsList, hl]
          | jnum n => simp [List.any_cons, hreq, exFails, actionsIsList, hl]
          | jstr s => simp [List.any_cons, hreq, exFails, actionsIsList, hl]
          | jobj kvs2 => simp [List.any_cons, hreq, exFails, actionsIsList, hl]
      · simp only [Bool.not_eq_true] at hreq
        rw [if_neg (by simp [hreq])]
        simp [List.any_cons, hreq, exFails]
    | jnull => simp [isJObj] at he
    | jbool b => simp [isJObj] at he
    | jnum n => simp [isJObj] at he
    | jstr s => simp [isJObj] at he
    | jarr xs => simp [isJObj] at he

/-- `deserializeMatterRaw` succeeds on an object carrying the required
matter fields. -/
theorem deserializeMatterRaw_ok (kvs : List (String × JVal))
    (h : requiredMatterFields.all (fun f => hasKey (.jobj kvs) f) = true) :
    ∃ m2, deserializeMatterRaw (.jobj kvs) = .ok m2 := by
  simp only [requiredMatterFields, List.all_cons, List.all_nil, Bool.and_eq_true,
    and_true, hasKey] at h
  obtain ⟨h1, h2, h3⟩ := h
  rw [Option.isSome_iff_exists] at h1 h2 h3
  obtain ⟨vi, hvi⟩ := h1
  obtain ⟨vn, hvn⟩ := h2
  obtain ⟨vt, hvt⟩ := h3
  refine ⟨.jobj [("id", vi), ("name", vn),
    ("case_type", jgetD kvs "case_type" (.jstr "")), ("created_at", vt)], ?_⟩
  simp only [deserializeMatterRaw, pyGetItem, hvi, hvn, hvt, bind, Except.bind]

/-- `migrateAction` always succeeds on an object action. -/
theorem migrateAction_obj_ok (ed : JVal) (kvs : List (String × JVal)) :
    ∃ a2, migrateAction ed (.jobj kvs) = .ok a2 := by
  by_cases h : (jlookup kvs "action_date").isSome = true
  · exact ⟨.jobj kvs, by simp only [migrateAction, pyContains, h]⟩
  · simp only [Bool.not_eq_true] at h
    exact ⟨.jobj (kvs ++ [("action_date", ed)]),
      by simp only [migrateAction, pyContains, h]⟩

/-- `deserializeEntryRaw` succeeds on an object carrying the required entry
fields whose actions value is a sequence of objects. -/
theorem deserializeEntryRaw_ok (kvs : List (String × JVal)) (as : List JVal)
    (hreq : requiredEntryFields.all (fun f => hasKey (.jobj kvs) f) = true)
    (hacts : jlookup kvs "actions" = some (.jarr as))
    (hobj : as.all isJObj = true) :
    ∃ e2, deserializeEntryRaw (.jobj kvs) = .ok e2 := by
  simp only [requiredEntryFields, List.all_cons, List.all_nil, Bool.and_eq_true,
    and_true, hasKey] at hreq
  obtain ⟨h1, h2, h3, h4, h5, h6⟩ := hreq
  rw [Option.isSome_iff_exists] at h1 h3 h4 h6
  obtain ⟨vi, hvi⟩ := h1
  obtain ⟨vw, hvw⟩ := h3
  obtain ⟨vm, hvm⟩ := h4
  obtain ⟨vt, hvt⟩ := h6
  obtain ⟨migrated, hmigr⟩ :=
    mapM_ok_of_forall (migrateAction (jgetD kvs "entry_date" .jnull)) as
      (fun a ha => by
        have hao := List.all_eq_true.mp hobj a ha
        cases a with
        | jobj akvs => exact migrateAction_obj_ok _ akvs
        | jnull => simp [isJObj] at hao
        | jbool b => simp [isJObj] at hao
        | jnum n => simp [isJObj] at hao
        | jstr s => simp [isJObj] at hao
        | jarr xs => simp [isJObj] at hao)
  have hav : jgetD kvs "actions" (.jarr []) = .jarr as := by
    simp [jgetD, hacts]
  refine ⟨.jobj
    [("id", vi), ("entry_date", jgetD kvs "entry_date" .jnull), ("week_index", vw),
     ("matter_id", vm), ("actions", .jarr migrated), ("total_minutes", vt),
     ("invoice_original_filename", jgetD kvs "invoice_original_filename" .jnull),
     ("invoice_storage_filename", jgetD kvs "invoice_storage_filename" .jnull),
     ("invoice_path", jgetD kvs "invoice_path" .jnull),
     ("created_at", jgetD kvs "created_at" (.jstr "")),
     ("updated_at", jgetD kvs "updated_at" (.jstr ""))], ?_⟩
  simp only [deserializeEntryRaw, hav, pyIterate, pyGetItem, hvi, hvw, hvm, hvt, hmigr,
    bind, Except.bind]

/-- `loadFails` is `exFails` after `load_data`. -/
theorem loadFails_eq_exFails (inp : LoadInput) :
    loadFails inp = exFails (load_data inp) := by
  unfold loadFails exFails
  cases load_data inp <;> rfl

/-- Core of the amended C6: with both containers present as arrays of
objects (and object action elements), `load_data` fails exactly when some
record misses a required field or some entry's actions value is not a
sequence. -/
theorem load_core_eq (kvs : List (String × JVal)) (ms es : List JVal)
    (hM : jlookup kvs "matters" = some (.jarr ms))
    (hE : jlookup kvs "entries" = some (.jarr es))
    (hmobj : ms.all isJObj = true)
    (hesobj : es.all isJObj = true)
    (hacts : ∀ ekvs, JVal.jobj ekvs ∈ es → ∀ as,
      jlookup ekvs "actions" = some (.jarr as) → as.all isJObj = true) :
    loadFails (.parsed (.jobj kvs)) = claimSaysLoadFails (.parsed (.jobj kvs)) := by
  have hgm : jgetD kvs "matters" (.jarr []) = .jarr ms := by simp [jgetD, hM]
  have hge : jgetD kvs "entries" (.jarr []) = .jarr es := by simp [jgetD, hE]
  have hlhs : load_data (.parsed (.jobj kvs)) =
      (match validateMatterRecords ms with
       | .error msg => .error msg
       | .ok _ =>
         match validateEntryRecords es with
         | .error msg => .error msg
         | .ok _ =>
           match ms.mapM deserializeMatterRaw with
           | .error msg => .error msg
           | .ok dm =>
             match es.mapM deserializeEntryRaw with
             | .error msg => .error msg
             | .ok de => .ok ⟨dm, de⟩) := by
    simp only [load_data, hM, hE, hgm, hge, Option.isSome_some, Bool.and_self,
      if_true, pyIterate]
  have hrhs : claimSaysLoadFails (.parsed (.jobj kvs)) =
      (ms.any (fun m => !(requiredMatterFields.all (fun f => hasKey m f)))
       || es.any (fun e =>
            !(requiredEntryFields.all (fun f => hasKey e f)) || !(actionsIsList e))) := by
    simp only [claimSaysLoadFails, hM, hE, Option.isSome_some, Bool.and_self,
      Bool.not_true, Bool.false_or]
  rw [loadFails_eq_exFails, hlhs, hrhs]
  rcases hvm : validateMatterRecords ms with msg | u
  · have hany := validateMatterRecords_fails ms hmobj
    rw [hvm] at hany
    simp only [exFails] at hany
    simp [exFails, ← hany]
  · have hanym := validateMatterRecords_fails ms hmobj
    rw [hvm] at hanym
    simp only [exFails] at hanym
    rcases hve : validateEntryRecords es with msg | u2
    · have hanye := validateEntryRecords_fails es hesobj
      rw [hve] at hanye
      simp only [exFails] at hanye
      simp [exFails, ← hanym, ← hanye]
    · have hanye := validateEntryRecords_fails es hesobj
      rw [hve] at hanye
      simp only [exFails] at hanye
      have hmreq : ∀ m ∈ ms, (requiredMatterFields.all (fun f => hasKey m f)) = true := by
        intro m hmm
        have := List.any_eq_false.mp hanym.symm m hmm
        simpa using this
      have hereq : ∀ e ∈ es,
          (requiredEntryFields.all (fun f => hasKey e f)) = true ∧
          actionsIsList e = true := by
        intro e hee
        have hF := List.any_eq_false.mp hanye.symm e hee
        have hF' : ((!(requiredEntryFields.all fun f => hasKey e f))
            || !(actionsIsList e)) = false := Bool.eq_false_iff.mpr hF
        obtain ⟨hF1, hF2⟩ := Bool.or_eq_false_iff.mp hF'
        constructor
        · cases hb : requiredEntryFields.all (fun f => hasKey e f)
          · rw [hb] at hF1; simp at hF1
          · rfl
        · cases hb : actionsIsList e
          · rw [hb] at hF2; simp at hF2
          · rfl
      obtain ⟨dm, hdm⟩ := mapM_ok_of_forall deserializeMatterRaw ms (by
        intro m hmm
        have hob := List.all_eq_true.mp hmobj m hmm
        cases m with
        | jobj mkvs => exact deserializeMatterRaw_ok mkvs (hmreq _ hmm)
        | jnull => simp [isJObj] at hob
        | jbool b => simp [isJObj] at hob
        | jnum n => simp [isJObj] at hob
        | jstr s => simp [isJObj] at hob
        | jarr xs => simp [isJObj] at hob)
      obtain ⟨de, hde⟩ := mapM_ok_of_forall deserializeEntryRaw es (by
        intro e hee
        have hob := List.all_eq_true.mp hesobj e hee
        cases e with
        | jobj ekvs =>
          obtain ⟨hreq, hal⟩ := hereq _ hee
          have hal2 : (match jlookup ekvs "actions" with
              | some (JVal.jarr _) => true
              | _ => false) = true := hal
          have : ∃ as, jlookup ekvs "actions" = some (.jarr as) := by
            rcases hl : jlookup ekvs "actions" with _ | v
            · rw [hl] at hal2; simp at hal2
            · cases v with
              | jarr as => exact ⟨as, rfl⟩
              | jnull => rw [hl] at hal2; simp at hal2
              | jbool b => rw [hl] at hal2; simp at hal2
              | jnum n => rw [hl] at hal2; simp at hal2
              | jstr s => rw [hl] at hal2; simp at hal2
              | jobj k2 => rw [hl] at hal2; simp at hal2
          obtain ⟨as, has⟩ := this
          exact deserializeEntryRaw_ok ekvs as hreq has (hacts ekvs hee as has)
        | jnull => simp [isJObj] at hob
        | jbool b => simp [isJObj] at hob
        | jnum n => simp [isJObj] at hob
        | jstr s => simp [isJObj] at hob
        | jarr xs => simp [isJObj] at hob)
      rw [hdm, hde]
      simp [exFails, ← hanym, ← hanye]

/-- Over well-shaped inputs, `load_data` fails exactly when the claim's
condition holds. -/
theorem loadFails_eq_claimSays (inp : LoadInput) (h : wellShapedInput inp = true) :
    loadFails inp = claimSaysLoadFails inp := by
  cases inp with
  | absent => rfl
  | badJson => rfl
  | parsed v =>
    cases v with
    | jnull => rfl
    | jbool b => rfl
    | jnum n => rfl
    | jstr s => rfl
    | jarr xs => rfl
    | jobj kvs =>
      have h2 : ((match jlookup kvs "matters" with
          | some (.jarr ms) => ms.all isJObj
          | some _ => false
          | none => true) &&
         (match jlookup kvs "entries" with
          | some (.jarr es) =>
            es.all (fun e =>
              isJObj e &&
              (match e with
               | .jobj ekvs =>
                 match jlookup ekvs "actions" with
                 | some (.jarr as) => as.all isJObj
                 | _ => true
               | _ => true))
          | some _ => false
          | none => true)) = true := h
      rcases hM : jlookup kvs "matters" with _ | mv
      · rw [loadFails_eq_exFails]
        simp [load_data, claimSaysLoadFails, hM, exFails]
      · rcases hE : jlookup kvs "entries" with _ | ev
        · rw [loadFails_eq_exFails]
          simp [load_data, claimSaysLoadFails, hM, hE, exFails]
        · rw [hM, hE] at h2
          simp only [Bool.and_eq_true] at h2
          obtain ⟨hm, he⟩ := h2
          cases mv with
          | jarr ms =>
            cases ev with
            | jarr es =>
              have hm' : ms.all isJObj = true := hm
              have he' : es.all (fun e =>
                  isJObj e &&
                  (match e with
                   | JVal.jobj ekvs =>
                     match jlookup ekvs "actions" with
                     | some (.jarr as) => as.all isJObj
                     | _ => true
                   | _ => true)) = true := he
              have hesobj : es.all isJObj = true := by
                rw [List.all_eq_true] at he' ⊢
                intro e hee
                exact ((Bool.and_eq_true _ _).mp (he' e hee)).1
              have hacts : ∀ ekvs, JVal.jobj ekvs ∈ es → ∀ as,
                  jlookup ekvs "actions" = some (.jarr as) → as.all isJObj = true := by
                intro ekvs hee as has
                have h3 := ((Bool.and_eq_true _ _).mp
                  (List.all_eq_true.mp he' _ hee)).2
                have h4 : (match jlookup ekvs "actions" with
                    | some (JVal.jarr as) => as.all isJObj
                    | _ => true) = true := h3
                rw [has] at h4
                exact h4
              exact load_core_eq kvs ms es hM hE hm' hesobj hacts
            | jnull => exact absurd (show (false : Bool) = true from he) (by simp)
            | jbool b => exact absurd (show (false : Bool) = true from he) (by simp)
            | jnum n => exact absurd (show (false : Bool) = true from he) (by simp)
            | jstr s => exact absurd (show (false : Bool) = true from he) (by simp)
            | jobj k2 => exact absurd (show (false : Bool) = true from he) (by simp)
          | jnull => exact absurd (show (false : Bool) = true from hm) (by simp)
          | jbool b => exact absurd (show (false : Bool) = true from hm) (by simp)
          | jnum n => exact absurd (show (false : Bool) = true from hm) (by simp)
          | jstr s => exact absurd (show (false : Bool) = true from hm) (by simp)
          | jobj k2 => exact absurd (show (false : Bool) = true from hm) (by simp)

/-- A successfully migrated action still/now contains its date key. -/
theorem migrateAction_ok_contains (ed a a2 : JVal)
    (hok : migrateAction ed a = .ok a2) :
    pyContains a2 "action_date" ≠ some false := by
  unfold migrateAction at hok
  rcases hc : pyContains a "action_date" with _ | b
  · rw [hc] at hok
    cases hok
  · rw [hc] at hok
    cases b
    · cases a with
      | jobj kvs =>
        simp only [] at hok
        cases hok
        have hnone : jlookup kvs "action_date" = none := by
          have hcv : (some (jlookup kvs "action_date").isSome : Option Bool)
              = some false := hc
          simp only [Option.some.injEq] at hcv
          exact Option.not_isSome_iff_eq_none.mp (by simp [hcv])
        show (some (jlookup (kvs ++ [("action_date", ed)]) "action_date").isSome
            : Option Bool) ≠ some false
        rw [jlookup_append, hnone]
        simp [jlookup]
      | jnull => cases hok
      | jbool b2 => cases hok
      | jnum n => cases hok
      | jstr s => cases hok
      | jarr xs => cases hok
    · cases hok
      rw [hc]
      simp

/-- The backfill value: a migrated object action's date key holds its
original value when present and the owning entry's date otherwise. -/
theorem migrateAction_lookup (ed : JVal) (kvs : List (String × JVal)) (a2 : JVal)
    (hok : migrateAction ed (.jobj kvs) = .ok a2) :
    ∃ kvs2, a2 = .jobj kvs2 ∧
      jlookup kvs2 "action_date" = some ((jlookup kvs "action_date").getD ed) := by
  by_cases hc : (jlookup kvs "action_date").isSome = true
  · have hred : migrateAction ed (.jobj kvs) = .ok (.jobj kvs) := by
      simp only [migrateAction, pyContains, hc]
    rw [hred] at hok
    cases hok
    refine ⟨kvs, rfl, ?_⟩
    obtain ⟨v, hv⟩ := Option.isSome_iff_exists.mp hc
    rw [hv]
    rfl
  · simp only [Bool.not_eq_true] at hc
    have hred : migrateAction ed (.jobj kvs)
        = .ok (.jobj (kvs ++ [("action_date", ed)])) := by
      simp only [migrateAction, pyContains, hc]
    rw [hred] at hok
    cases hok
    refine ⟨kvs ++ [("action_date", ed)], rfl, ?_⟩
    have hnone : jlookup kvs "action_date" = none :=
      Option.not_isSome_iff_eq_none.mp (by simp [hc])
    rw [jlookup_append, hnone]
    simp [jlookup]

/-- A successfully deserialized entry is an object whose actions value is
the sequence of migrated actions, none of which lacks the date key. -/
theorem deserializeEntryRaw_actions (e e2 : JVal)
    (hok : deserializeEntryRaw e = .ok e2) :
    ∃ kvs2 acts, e2 = .jobj kvs2 ∧ jlookup kvs2 "actions" = some (.jarr acts) ∧
      ∀ a ∈ acts, pyContains a "action_date" ≠ some false := by
  cases e with
  | jobj kvs =>
    have hok2 : (do
        let items ←
          match pyIterate (jgetD kvs "actions" (.jarr [])) with
          | some xs => Except.ok xs
          | none => Except.error "TypeError"
        let migrated ← items.mapM (migrateAction (jgetD kvs "entry_date" .jnull))
        let i ← pyGetItem (.jobj kvs) "id"
        let wk ← pyGetItem (.jobj kvs) "week_index"
        let mid ← pyGetItem (.jobj kvs) "matter_id"
        let tm ← pyGetItem (.jobj kvs) "total_minutes"
        Except.ok (.jobj
          [("id", i), ("entry_date", jgetD kvs "entry_date" .jnull), ("week_index", wk),
           ("matter_id", mid), ("actions", .jarr migrated), ("total_minutes", tm),
           ("invoice_original_filename", jgetD kvs "invoice_original_filename" .jnull),
           ("invoice_storage_filename", jgetD kvs "invoice_storage_filename" .jnull),
           ("invoice_path", jgetD kvs "invoice_path" .jnull),
           ("created_at", jgetD kvs "created_at" (.jstr "")),
           ("updated_at", jgetD kvs "updated_at" (.jstr ""))])
        : Except String JVal) = .ok e2 := hok
    clear hok
    rcases hit : pyIterate (jgetD kvs "actions" (.jarr [])) with _ | items
    · rw [hit] at hok2
      simp only [bind, Except.bind] at hok2
      cases hok2
    · rw [hit] at hok2
      simp only [bind, Except.bind] at hok2
      rcases hmig : items.mapM (migrateAction (jgetD kvs "entry_date" .jnull))
          with msg | migrated
      · rw [hmig] at hok2
        simp only [] at hok2
        cases hok2
      · rw [hmig] at hok2
        simp only [] at hok2
        rcases hi : pyGetItem (.jobj kvs) "id" with msg | vi
        · rw [hi] at hok2
          simp only [] at hok2
          cases hok2
        · rw [hi] at hok2
          simp only [] at hok2
          rcases hw : pyGetItem (.jobj kvs) "week_index" with msg | vw
          · rw [hw] at hok2
            simp only [] at hok2
            cases hok2
          · rw [hw] at hok2
            simp only [] at hok2
            rcases hm : pyGetItem (.jobj kvs) "matter_id" with msg | vm
            · rw [hm] at hok2
              simp only [] at hok2
              cases hok2
            · rw [hm] at hok2
              simp only [] at hok2
              rcases ht : pyGetItem (.jobj kvs) "total_minutes" with msg | vt
              · rw [ht] at hok2
                simp only [] at hok2
                cases hok2
              · rw [ht] at hok2
                simp only [Except.ok.injEq] at hok2
                refine ⟨_, migrated, hok2.symm, ?_, ?_⟩
                · rfl
                · intro a ha
                  obtain ⟨src, hsrc, hmigok⟩ :=
                    mapM_ok_mem _ items migrated hmig a ha
                  exact migrateAction_ok_contains _ src a hmigok
  | jnull => cases hok
  | jbool b => cases hok
  | jnum n => cases hok
  | jstr s => cases hok
  | jarr xs => cases hok

/-- Every entry of a successful load is the image of some raw record under
`deserializeEntryRaw`. -/
theorem load_ok_entries (inp : LoadInput) (st : RawStore)
    (hok : load_data inp = .ok st) :
    ∀ e2 ∈ st.entries, ∃ e, deserializeEntryRaw e = .ok e2 := by
  cases inp with
  | absent =>
    have h : (Except.ok (⟨[], []⟩ : RawStore) : Except String RawStore) = .ok st := hok
    simp only [Except.ok.injEq] at h
    subst h
    intro e2 he2
    simp at he2
  | badJson => exact Except.noConfusion hok
  | parsed v =>
    cases v with
    | jnull => exact Except.noConfusion hok
    | jbool b => exact Except.noConfusion hok
    | jnum n => exact Except.noConfusion hok
    | jstr s => exact Except.noConfusion hok
    | jarr xs => exact Except.noConfusion hok
    | jobj kvs =>
      have hok2 : (if ((jlookup kvs "matters").isSome
            && (jlookup kvs "entries").isSome : Bool) then
          match pyIterate (jgetD kvs "matters" (.jarr [])) with
          | none => Except.error "Failed to load data: matters is not iterable"
          | some ms =>
            match validateMatterRecords ms with
            | .error msg => Except.error msg
            | .ok _ =>
              match pyIterate (jgetD kvs "entries" (.jarr [])) with
              | none => Except.error "Failed to load data: entries is not iterable"
              | some es =>
                match validateEntryRecords es with
                | .error msg => Except.error msg
                | .ok _ =>
                  match ms.mapM deserializeMatterRaw with
                  | .error msg => Except.error msg
                  | .ok dm =>
                    match es.mapM deserializeEntryRaw with
                    | .error msg => Except.error msg
                    | .ok de => Except.ok (⟨dm, de⟩ : RawStore)
        else Except.error "Data file must contain matters and entries arrays")
          = .ok st := hok
      clear hok
      by_cases hpres : ((jlookup kvs "matters").isSome
          && (jlookup kvs "entries").isSome) = true
      · rw [if_pos hpres] at hok2
        rcases hitm : pyIterate (jgetD kvs "matters" (.jarr [])) with _ | ms
        · rw [hitm] at hok2
          simp only [] at hok2
          cases hok2
        · rw [hitm] at hok2
          simp only [] at hok2
          rcases hvm : validateMatterRecords ms with msg | u
          · rw [hvm] at hok2
            simp only [] at hok2
            cases hok2
          · rw [hvm] at hok2
            simp only [] at hok2
            rcases hite : pyIterate (jgetD kvs "entries" (.jarr [])) with _ | es
            · rw [hite] at hok2
              simp only [] at hok2
              cases hok2
            · rw [hite] at hok2
              simp only [] at hok2
              rcases hve : validateEntryRecords es with msg | u2
              · rw [hve] at hok2
                simp only [] at hok2
                cases hok2
              · rw [hve] at hok2
                simp only [] at hok2
                rcases hdm : ms.mapM deserializeMatterRaw with msg | dm
                · rw [hdm] at hok2
                  simp only [] at hok2
                  cases hok2
                · rw [hdm] at hok2
                  simp only [] at hok2
                  rcases hde : es.mapM deserializeEntryRaw with msg | de
                  · rw [hde] at hok2
                    simp only [] at hok2
                    cases hok2
                  · rw [hde] at hok2
                    simp only [Except.ok.injEq] at hok2
                    subst hok2
                    intro e2 he2
                    obtain ⟨e, hee, heok⟩ :=
                      mapM_ok_mem deserializeEntryRaw es de hde e2 he2
                    exact ⟨e, heok⟩
      · rw [if_neg hpres] at hok2
        cases hok2

/-- C6 counterexample.  The claim's "fails exactly when" list does not cover
this input: every listed condition is false (valid JSON object, both
containers present, no record missing a field, actions IS a sequence), yet
`load_data` raises — migrating the non-object action element 5 raises
TypeError inside `_deserialize_data`. -/
theorem load_data_claim_counterexample :
    loadFails c6BadInput = true ∧ claimSaysLoadFails c6BadInput = false :=
  ⟨rfl, rfl⟩

/-- C6 as amended.  `load_data` returns the empty state for an absent file
and an error for unparseable content; over well-shaped inputs (containers
that are sequences of objects, actions elements that are objects) it fails
exactly when the claim's condition list holds; and on success the migration
holds: a migrated object action carries an `action_date` key whose value is
its original one when present and the owning entry's date otherwise, every
successfully deserialized entry's actions all carry the key, and every
entry of a successful load arises from `deserializeEntryRaw`.  (The
equivalence is claimed only on the well-shaped fragment: the counterexample
shows an input outside it on which the original "exactly when" list is
wrong, and outside the fragment loading may fail or succeed depending on
the shapes involved.) -/
theorem load_data_characterization :
    load_data .absent = .ok ⟨[], []⟩ ∧
    loadFails .badJson = true ∧
    (∀ inp, wellShapedInput inp = true → loadFails inp = claimSaysLoadFails inp) ∧
    (∀ ed kvs a2, migrateAction ed (.jobj kvs) = .ok a2 →
      ∃ kvs2, a2 = .jobj kvs2 ∧
        jlookup kvs2 "action_date" = some ((jlookup kvs "action_date").getD ed)) ∧
    (∀ e e2, deserializeEntryRaw e = .ok e2 →
      ∃ kvs2 acts, e2 = .jobj kvs2 ∧ jlookup kvs2 "actions" = some (.jarr acts) ∧
        ∀ a ∈ acts, pyContains a "action_date" ≠ some false) ∧
    (∀ inp st, load_data inp = .ok st → ∀ e2 ∈ st.entries,
      ∃ e, deserializeEntryRaw e = .ok e2) :=
  ⟨rfl, rfl, loadFails_eq_claimSays, migrateAction_lookup, deserializeEntryRaw_actions,
   load_ok_entries⟩

/-- A well-shaped, fully valid input for the C6 witness. -/
def c6GoodInput : LoadInput :=
  .parsed (.jobj
    [("matters", .jarr [.jobj [("id", .jstr "m1"), ("name", .jstr "alpha"),
        ("created_at", .jstr "t0")]]),
     ("entries", .jarr [.jobj [("id", .jstr "e1"), ("entry_date", .jstr "2024-06-03"),
        ("week_index", .jnum 1), ("matter_id", .jstr "m1"),
        ("actions", .jarr [.jobj [("action_description", .jstr "A"),
           ("duration_minutes", .jnum 30)]]),
        ("total_minutes", .jnum 30)]])])

/-- Closed instance of the amended C6: the failure equivalence at a concrete
well-shaped input, and the migration-value clause at a concrete dated
action. -/
theorem load_data_characterization_witness :
    loadFails c6GoodInput = claimSaysLoadFails c6GoodInput ∧
    (∃ kvs2, (JVal.jobj [("action_date", .jstr "2024-06-03")]) = .jobj kvs2 ∧
      jlookup kvs2 "action_date"
        = some ((jlookup [] "action_date").getD (.jstr "2024-06-03"))) :=
  ⟨load_data_characterization.2.2.1 c6GoodInput rfl,
   load_data_characterization.2.2.2.1 (.jstr "2024-06-03") []
     (.jobj [("action_date", .jstr "2024-06-03")]) rfl⟩
